import Mathlib

/-!
# A closed tagged union over raw storage: `variant.h`

Shallow embedding of `VariantHelper<Ts...>` (the dispatch over the alternative
list) and of `Variant<Ts...>` (discriminant `type_id` plus the inline buffer
`data`), followed by theorems about construction, assignment, `get` and `set`,
the queries, the buffer size, the dispatch and duplicate alternatives.

Conventions of the embedding

* A C++ type is an element of a parameter `Ty`; the template pack `Ts...` is a
  `List Ty` passed explicitly to every member of the class template.
* What `<typeinfo>` and the alternatives themselves contribute is collected in
  `Lang`: the hash code of each type, the state a move constructor leaves
  behind, and whether a copy constructor throws.
* The buffer `data` is `Option Object`: `none` when no object lives in it.
  Every constructor call creates an object with a fresh serial number, and
  every constructor and destructor call is appended to the trace of the
  `World`, so destructions can be counted and attributed.
* A result `none` stands for undefined behaviour (a typed operation applied
  to storage that does not hold a live object of that type, or the bytes of an
  object that is not trivially copyable exchanged by `std::swap`).  Otherwise
  a member function yields `Except Exception _` together with the states it
  leaves behind, so the state after a `throw` can be inspected.
* The member template `set` has no well-formed instantiation; its definition
  reads its body statement by statement.
-/

namespace CppVariant

/-- The values the member `type_id` receives in `variant.h`.  Every comparison
(`is`, `get`, `valid`, the dispatch) and every constructor uses
`typeid(T).hash_code()`, a `size_t`; line 151 of `set` assigns `typeid(T)`,
the `std::type_info` object itself, which is not a `size_t` and has no
conversion to one.  The two kinds of identifier are kept apart. -/
inductive TypeId (Ty : Type) where
  /-- A value `typeid(T).hash_code()`. -/
  | hash (h : Nat)
  /-- The object `typeid(T)`. -/
  | info (T : Ty)
deriving DecidableEq, Repr

/-- Whether a value is a `size_t`, the declared type of the member `type_id`
(line 82).  The object `typeid(T)` is not, and nothing converts it to one. -/
def TypeId.is_size_t {Ty : Type} : TypeId Ty → Bool
  | .hash _ => true
  | .info _ => false

/-- An object living in a buffer: the serial number of the constructor call
that created it, its dynamic type and its value. -/
structure Object (Ty Val : Type) where
  serial : Nat
  type : Ty
  value : Val
deriving DecidableEq, Repr

/-- A constructor or destructor call of an alternative. -/
inductive Event (Ty Val : Type) where
  | constructed (o : Object Ty Val)
  | destructed (o : Object Ty Val)
deriving DecidableEq, Repr

/-- Instrumentation: the serial number the next constructed object receives and
the constructor and destructor calls so far, oldest first. -/
structure World (Ty Val : Type) where
  next : Nat
  trace : List (Event Ty Val)
deriving DecidableEq, Repr

/-- The buffer `std::aligned_storage<SIZE, ALIGN>::type`, seen through the
object that currently lives in it. -/
abbrev Data (Ty Val : Type) := Option (Object Ty Val)

/-- What the language and the alternative types provide. -/
structure Lang (Ty Val : Type) where
  /-- The type `void`. -/
  void : Ty
  /-- The value of `typeid(T).hash_code()`. -/
  hash_code : Ty → Nat
  /-- The value a move constructor of `T` leaves in the object it moved from. -/
  moved_from : Ty → Val → Val
  /-- Whether the copy constructor of `T` throws when copying this value. -/
  copy_throws : Ty → Val → Bool
  /-- The trait `std::is_trivially_copyable<T>`: whether copying the bytes of an
  object of type `T` into other storage yields that object there. -/
  trivially_copyable : Ty → Bool

/-- Exceptions leaving a member function: `std::bad_cast` from `get`,
`variant_error` from `set`, and an exception thrown by a constructor of an
alternative. -/
inductive Exception where
  | bad_cast
  | variant_error
  | alternative_ctor
deriving DecidableEq, Repr

set_option linter.unusedSectionVars false

variable {Ty Val : Type} [DecidableEq Ty]

/-- The number of destructor calls in a list of events. -/
def destructions (es : List (Event Ty Val)) : Nat :=
  (es.filter fun e => match e with
    | .destructed _ => true
    | .constructed _ => false).length

/-- The number of constructor calls in a list of events. -/
def constructions (es : List (Event Ty Val)) : Nat :=
  (es.filter fun e => match e with
    | .constructed _ => true
    | .destructed _ => false).length

/-- The objects whose destructor ran, in order. -/
def destructed_objects : List (Event Ty Val) → List (Object Ty Val)
  | [] => []
  | .destructed o :: es => o :: destructed_objects es
  | .constructed _ :: es => destructed_objects es

/-! ## The typed operations on raw storage -/

/-- The statement `reinterpret_cast<Curr_T *>(data)->~Curr_T();`. -/
def destroy_in_place (Curr_T : Ty) (data : Data Ty Val) (w : World Ty Val) :
    Option (Data Ty Val × World Ty Val) :=
  match data with
  | some o =>
    if o.type = Curr_T then
      some (none, { w with trace := w.trace ++ [.destructed o] })
    else none
  | none => none

/-- The statement
`new (new_data) Curr_T(std::move(*reinterpret_cast<Curr_T *>(old_data)));`.
Yields the old buffer, the new buffer and the world. -/
def move_construct (L : Lang Ty Val) (Curr_T : Ty) (old_data : Data Ty Val)
    (w : World Ty Val) : Option (Data Ty Val × Data Ty Val × World Ty Val) :=
  match old_data with
  | some o =>
    if o.type = Curr_T then
      let n : Object Ty Val := { serial := w.next, type := Curr_T, value := o.value }
      some (some { o with value := L.moved_from Curr_T o.value }, some n,
        { next := w.next + 1, trace := w.trace ++ [.constructed n] })
    else none
  | none => none

/-- The statement
`new (new_data) Curr_T(*reinterpret_cast<Curr_T *>(old_data));`.
When the copy constructor throws, no object is created at `new_data`. -/
def copy_construct (L : Lang Ty Val) (Curr_T : Ty) (old_data new_data : Data Ty Val)
    (w : World Ty Val) :
    Option (Except Exception Unit × Data Ty Val × Data Ty Val × World Ty Val) :=
  match old_data with
  | some o =>
    if o.type = Curr_T then
      if L.copy_throws Curr_T o.value then
        some (.error .alternative_ctor, old_data, new_data, w)
      else
        let n : Object Ty Val := { serial := w.next, type := Curr_T, value := o.value }
        some (.ok (), old_data, some n,
          { next := w.next + 1, trace := w.trace ++ [.constructed n] })
    else none
  | none => none

/-! ## `VariantHelper<Variant_Ts...>` -/

/-- The function `VariantHelper<Curr_T, Rest_Ts...>::destroy`, with
`VariantHelper<>::destroy` as the case of the empty list. -/
def VariantHelper.destroy (L : Lang Ty Val) :
    List Ty → TypeId Ty → Data Ty Val → World Ty Val → Option (Data Ty Val × World Ty Val)
  | [], _, data, w => some (data, w)
  | Curr_T :: Rest_Ts, id, data, w =>
    if id = .hash (L.hash_code Curr_T) then
      destroy_in_place Curr_T data w
    else
      VariantHelper.destroy L Rest_Ts id data w

/-- The function `VariantHelper<Curr_T, Rest_Ts...>::move`, with
`VariantHelper<>::move` as the case of the empty list. -/
def VariantHelper.move (L : Lang Ty Val) :
    List Ty → TypeId Ty → Data Ty Val → Data Ty Val → World Ty Val →
      Option (Data Ty Val × Data Ty Val × World Ty Val)
  | [], _, old_data, new_data, w => some (old_data, new_data, w)
  | Curr_T :: Rest_Ts, old_id, old_data, new_data, w =>
    if old_id = .hash (L.hash_code Curr_T) then
      move_construct L Curr_T old_data w
    else
      VariantHelper.move L Rest_Ts old_id old_data new_data w

/-- The function `VariantHelper<Curr_T, Rest_Ts...>::copy`, with
`VariantHelper<>::copy` as the case of the empty list. -/
def VariantHelper.copy (L : Lang Ty Val) :
    List Ty → TypeId Ty → Data Ty Val → Data Ty Val → World Ty Val →
      Option (Except Exception Unit × Data Ty Val × Data Ty Val × World Ty Val)
  | [], _, old_data, new_data, w => some (.ok (), old_data, new_data, w)
  | Curr_T :: Rest_Ts, old_id, old_data, new_data, w =>
    if old_id = .hash (L.hash_code Curr_T) then
      copy_construct L Curr_T old_data new_data w
    else
      VariantHelper.copy L Rest_Ts old_id old_data new_data w

/-! ## `Variant<Ts...>` -/

/-- The data members of `Variant<Ts...>`. -/
structure Variant (Ty Val : Type) where
  type_id : TypeId Ty
  data : Data Ty Val
deriving DecidableEq, Repr

/-- The trait `FindType<Type, Pack...>::value`. -/
def Variant.FindType (T : Ty) : List Ty → Bool
  | [] => false
  | Curr_T :: Rest_Ts => decide (T = Curr_T) || Variant.FindType T Rest_Ts

/-- The constructor `Variant()`: the buffer is left uninitialised. -/
def Variant.default_ctor (L : Lang Ty Val) : Variant Ty Val :=
  { type_id := .hash (L.hash_code L.void), data := none }

/-- The constructor `Variant(const Variant &other)`.  Yields the new container
(unless the copy of the alternative throws), `other` and the world. -/
def Variant.copy_ctor (L : Lang Ty Val) (Ts : List Ty) (other : Variant Ty Val)
    (w : World Ty Val) :
    Option (Except Exception (Variant Ty Val) × Variant Ty Val × World Ty Val) :=
  match VariantHelper.copy L Ts other.type_id other.data none w with
  | none => none
  | some (.error e, old_data, _, w1) => some (.error e, { other with data := old_data }, w1)
  | some (.ok (), old_data, new_data, w1) =>
    some (.ok { type_id := other.type_id, data := new_data },
      { other with data := old_data }, w1)

/-- The constructor `Variant(Variant &&other)`.  Yields `other` as it is left,
the new container and the world. -/
def Variant.move_ctor (L : Lang Ty Val) (Ts : List Ty) (other : Variant Ty Val)
    (w : World Ty Val) : Option (Variant Ty Val × Variant Ty Val × World Ty Val) :=
  match VariantHelper.move L Ts other.type_id other.data none w with
  | none => none
  | some (old_data, new_data, w1) =>
    some ({ other with data := old_data },
      { type_id := other.type_id, data := new_data }, w1)

/-- The destructor `~Variant()`. -/
def Variant.dtor (L : Lang Ty Val) (Ts : List Ty) (c : Variant Ty Val) (w : World Ty Val) :
    Option (World Ty Val) :=
  match VariantHelper.destroy L Ts c.type_id c.data w with
  | none => none
  | some (_, w1) => some w1

/-- Whether the bytes of a buffer can be copied elsewhere with the object they
hold: the buffer holds no object, or an object of a trivially copyable type. -/
def bytewise_copyable (L : Lang Ty Val) (data : Data Ty Val) : Bool :=
  match data with
  | none => true
  | some o => L.trivially_copyable o.type

/-- The statement `std::swap(data, rhs.data);` (line 115): the bytes of the two
buffers are exchanged and no constructor of an alternative runs.  An object of
a trivially copyable type goes with its bytes; when a buffer holds an object of
any other type the effect is undefined (a `std::string` is left with a
dangling pointer into the other buffer).  Yields the contents of `data` and of
`rhs.data` after the exchange. -/
def swap_data (L : Lang Ty Val) (data rhs_data : Data Ty Val) :
    Option (Data Ty Val × Data Ty Val) :=
  if bytewise_copyable L data && bytewise_copyable L rhs_data then
    some (rhs_data, data)
  else none

/-- The body of `operator=(Variant rhs)` followed by the destruction of its
by-value parameter: `std::swap(type_id, rhs.type_id)` exchanges the
discriminants, `std::swap(data, rhs.data)` the bytes of the buffers, then `rhs`
goes out of scope. -/
def Variant.operator_assign (L : Lang Ty Val) (Ts : List Ty) (self rhs : Variant Ty Val)
    (w : World Ty Val) : Option (Variant Ty Val × World Ty Val) :=
  match swap_data L self.data rhs.data with
  | none => none
  | some (data, rhs_data) =>
    let self1 : Variant Ty Val := { type_id := rhs.type_id, data := data }
    let rhs1 : Variant Ty Val := { type_id := self.type_id, data := rhs_data }
    match Variant.dtor L Ts rhs1 w with
    | none => none
    | some w1 => some (self1, w1)

/-- The expression `a = b` for an lvalue `b`: the parameter `rhs` is
copy-constructed from `b`, then `operator=` runs on `a`.  Yields `a`, `b` and the
world as they are left. -/
def Variant.assign (L : Lang Ty Val) (Ts : List Ty) (a b : Variant Ty Val)
    (w : World Ty Val) :
    Option (Except Exception Unit × Variant Ty Val × Variant Ty Val × World Ty Val) :=
  match Variant.copy_ctor L Ts b w with
  | none => none
  | some (.error e, b1, w1) => some (.error e, a, b1, w1)
  | some (.ok rhs, b1, w1) =>
    match Variant.operator_assign L Ts a rhs w1 with
    | none => none
    | some (a1, w2) => some (.ok (), a1, b1, w2)

/-- The expression `c = c`: as `assign`, with both operands the same
container. -/
def Variant.self_assign (L : Lang Ty Val) (Ts : List Ty) (c : Variant Ty Val)
    (w : World Ty Val) : Option (Except Exception Unit × Variant Ty Val × World Ty Val) :=
  match Variant.copy_ctor L Ts c w with
  | none => none
  | some (.error e, c1, w1) => some (.error e, c1, w1)
  | some (.ok rhs, c1, w1) =>
    match Variant.operator_assign L Ts c1 rhs w1 with
    | none => none
    | some (c2, w2) => some (.ok (), c2, w2)

/-- The member `is<T>()`. -/
def Variant.is (L : Lang Ty Val) (T : Ty) (c : Variant Ty Val) : Bool :=
  decide (c.type_id = .hash (L.hash_code T))

/-- The member `valid<T>()`; its template parameter is not used. -/
def Variant.valid (L : Lang Ty Val) (_T : Ty) (c : Variant Ty Val) : Bool :=
  decide (c.type_id ≠ .hash (L.hash_code L.void))

/-- The member `get<T>()`: the value the returned reference designates, and
the container as it is left. -/
def Variant.get (L : Lang Ty Val) (T : Ty) (c : Variant Ty Val) :
    Option (Except Exception Val × Variant Ty Val) :=
  if c.type_id = .hash (L.hash_code T) then
    match c.data with
    | some o => if o.type = T then some (.ok o.value, c) else none
    | none => none
  else
    some (.error .bad_cast, c)

/-- The statement `c.get<T>() = v;`: a write through the reference `get`
returns. -/
def Variant.get_write (L : Lang Ty Val) (T : Ty) (v : Val) (c : Variant Ty Val) :
    Option (Except Exception Unit × Variant Ty Val) :=
  match Variant.get L T c with
  | none => none
  | some (.error e, c1) => some (.error e, c1)
  | some (.ok _, c1) =>
    some (.ok (), { c1 with data := c1.data.map fun o => { o with value := v } })

/-- The body of the member template `set<T>(args...)`, read statement by
statement.  The parameter `args` is the value the constructor call
`T(args...)` builds, `none` when that constructor throws.

No instantiation of this member is well-formed: line 150 calls `std::forward`
without its template argument and line 151 assigns `typeid(T)` to the `size_t`
member `type_id`, so no program that calls `set` is built.  The definition says
what the four statements do in the order written; it serves to locate the
defects of `set`, not to predict the run of a program. -/
def Variant.set (L : Lang Ty Val) (Ts : List Ty) (T : Ty) (args : Option Val)
    (c : Variant Ty Val) (w : World Ty Val) :
    Option (Except Exception Unit × Variant Ty Val × World Ty Val) :=
  if !Variant.FindType T Ts then
    some (.error .variant_error, c, w)
  else
    match VariantHelper.destroy L Ts c.type_id c.data w with
    | none => none
    | some (data, w1) =>
      match args with
      | none => some (.error .alternative_ctor, { c with data := data }, w1)
      | some v =>
        let o : Object Ty Val := { serial := w1.next, type := T, value := v }
        some (.ok (), { type_id := .info T, data := some o },
          { next := w1.next + 1, trace := w1.trace ++ [.constructed o] })

/-- The move-safety scenario: `c2` is move-constructed from `c1`, then the
destructors of `c2` and of `c1` run.  Yields the constructor and destructor
calls of these three steps. -/
def move_then_destroy_both (L : Lang Ty Val) (Ts : List Ty) (c1 : Variant Ty Val)
    (w : World Ty Val) : Option (List (Event Ty Val)) :=
  match Variant.move_ctor L Ts c1 w with
  | none => none
  | some (c1', c2, w1) =>
    match Variant.dtor L Ts c2 w1 with
    | none => none
    | some w2 =>
      match Variant.dtor L Ts c1' w2 with
      | none => none
      | some w3 => some (w3.trace.drop w.trace.length)

/-! ## The states of the data model -/

/-- The container is empty: the discriminant is the empty sentinel and no
object lives in the buffer. -/
def Variant.Empty (L : Lang Ty Val) (c : Variant Ty Val) : Prop :=
  c.type_id = .hash (L.hash_code L.void) ∧ c.data = none

/-- The container is occupied by the object `o`, an alternative of `Ts`
identified by the discriminant. -/
def Variant.Occupied (L : Lang Ty Val) (Ts : List Ty) (c : Variant Ty Val)
    (o : Object Ty Val) : Prop :=
  o.type ∈ Ts ∧ c.type_id = .hash (L.hash_code o.type) ∧ c.data = some o

/-- A container state of the data model: empty, or occupied by an
alternative. -/
def Variant.WellFormed (L : Lang Ty Val) (Ts : List Ty) (c : Variant Ty Val) : Prop :=
  Variant.Empty L c ∨ ∃ o, Variant.Occupied L Ts c o

/-- Type identifiers are free of collisions on the alternatives and `void`,
and `void` is not an alternative. -/
def CollisionFree (L : Lang Ty Val) (Ts : List Ty) : Prop :=
  L.void ∉ Ts ∧ ∀ T ∈ L.void :: Ts, ∀ U ∈ L.void :: Ts, L.hash_code T = L.hash_code U → T = U

/-! ## An instance: `Variant<int, std::string>` -/

/-- The types of the instance. -/
inductive CType where
  | void
  | int
  | string
deriving DecidableEq, Repr

/-- The values of the instance. -/
inductive CValue where
  | int (n : Int)
  | string (s : String)
deriving DecidableEq, Repr

/-- An environment for the instance: distinct hash codes, copy constructors
that do not throw, a moved-from `int` keeps its value and a moved-from string
is empty; `int` is trivially copyable and `std::string` is not. -/
def lang0 : Lang CType CValue where
  void := .void
  hash_code := fun T => match T with
    | .void => 0
    | .int => 1
    | .string => 2
  moved_from := fun _ v => match v with
    | .int n => .int n
    | .string _ => .string ""
  copy_throws := fun _ _ => false
  trivially_copyable := fun T => match T with
    | .void => false
    | .int => true
    | .string => false

/-- The pack `int, std::string`. -/
def Ts0 : List CType := [.int, .string]

/-- A world in which nothing was constructed yet. -/
def world0 : World CType CValue := { next := 0, trace := [] }

/-- A container holding the string `"hi"`, the object with serial number 0. -/
def c_hi : Variant CType CValue :=
  { type_id := .hash 2, data := some { serial := 0, type := .string, value := .string "hi" } }

/-- A container holding the integer 42, the object with serial number 1. -/
def c_42 : Variant CType CValue :=
  { type_id := .hash 1, data := some { serial := 1, type := .int, value := .int 42 } }

/-- The world after the objects of `c_hi` and `c_42` were constructed. -/
def world2 : World CType CValue :=
  { next := 2,
    trace := [.constructed { serial := 0, type := .string, value := .string "hi" },
      .constructed { serial := 1, type := .int, value := .int 42 }] }

/-! ## Storage size, the invariant of the data model, duplicate alternatives -/

/-- The trait `StaticMax<args...>::value`: the specialisation for one argument
yields it, the specialisation `StaticMax<arg, args...>` yields the value for
`args...`.  The primary template is only declared, so there is no value for an
empty argument list. -/
def Variant.StaticMax : List Nat → Option Nat
  | [] => none
  | [arg] => some arg
  | _ :: arg :: args => Variant.StaticMax (arg :: args)

/-- The constant `SIZE = StaticMax<sizeof(Ts)...>::value`, for a given
`sizeof`. -/
def Variant.SIZE (sizeof : Ty → Nat) (Ts : List Ty) : Option Nat :=
  Variant.StaticMax (Ts.map sizeof)

/-- The constant `ALIGN = StaticMax<alignof(Ts)...>::value`, for a given
`alignof`. -/
def Variant.ALIGN (alignof : Ty → Nat) (Ts : List Ty) : Option Nat :=
  Variant.StaticMax (Ts.map alignof)

/-- Invariants 2 and 3 of the data model: the discriminant is the empty sentinel
exactly when no object lives in the buffer, and otherwise it identifies, in the
way `is` compares, the type of the object that lives there. -/
def Variant.TagMatchesStorage (L : Lang Ty Val) (c : Variant Ty Val) : Prop :=
  (c.type_id = .hash (L.hash_code L.void) ↔ c.data = none) ∧
  ∀ o, c.data = some o → Variant.is L o.type c = true

/-- The pack with every later occurrence of a repeated type removed. -/
def remove_later_duplicates : List Ty → List Ty
  | [] => []
  | T :: Ts => T :: (remove_later_duplicates Ts).filter fun U => decide (U ≠ T)

/-- Sizes of the types of the instance, as on a common 64-bit platform (`void`
is never an alternative; its entry is not used). -/
def sizeof0 : CType → Nat
  | .void => 1
  | .int => 4
  | .string => 32

/-- Alignments of the types of the instance. -/
def alignof0 : CType → Nat
  | .void => 1
  | .int => 4
  | .string => 8

/-- The environment `lang0`, except that copying a string throws (as
`std::bad_alloc` would). -/
def lang1 : Lang CType CValue :=
  { lang0 with copy_throws := fun T _ => decide (T = .string) }

/-! ## The dispatch as a first-match scan -/

theorem VariantHelper.destroy_miss (L : Lang Ty Val) (Ts : List Ty) (id : TypeId Ty)
    (data : Data Ty Val) (w : World Ty Val)
    (h : ∀ U ∈ Ts, id ≠ .hash (L.hash_code U)) :
    VariantHelper.destroy L Ts id data w = some (data, w) := by
  induction Ts with
  | nil => rfl
  | cons U Us ih =>
    have hU : id ≠ .hash (L.hash_code U) := h U (List.mem_cons_self U Us)
    have hUs : ∀ V ∈ Us, id ≠ .hash (L.hash_code V) := fun V hV =>
      h V (List.mem_cons_of_mem U hV)
    simp [VariantHelper.destroy, hU, ih hUs]

theorem VariantHelper.move_miss (L : Lang Ty Val) (Ts : List Ty) (id : TypeId Ty)
    (old_data new_data : Data Ty Val) (w : World Ty Val)
    (h : ∀ U ∈ Ts, id ≠ .hash (L.hash_code U)) :
    VariantHelper.move L Ts id old_data new_data w = some (old_data, new_data, w) := by
  induction Ts with
  | nil => rfl
  | cons U Us ih =>
    have hU : id ≠ .hash (L.hash_code U) := h U (List.mem_cons_self U Us)
    have hUs : ∀ V ∈ Us, id ≠ .hash (L.hash_code V) := fun V hV =>
      h V (List.mem_cons_of_mem U hV)
    simp [VariantHelper.move, hU, ih hUs]

theorem VariantHelper.copy_miss (L : Lang Ty Val) (Ts : List Ty) (id : TypeId Ty)
    (old_data new_data : Data Ty Val) (w : World Ty Val)
    (h : ∀ U ∈ Ts, id ≠ .hash (L.hash_code U)) :
    VariantHelper.copy L Ts id old_data new_data w = some (.ok (), old_data, new_data, w) := by
  induction Ts with
  | nil => rfl
  | cons U Us ih =>
    have hU : id ≠ .hash (L.hash_code U) := h U (List.mem_cons_self U Us)
    have hUs : ∀ V ∈ Us, id ≠ .hash (L.hash_code V) := fun V hV =>
      h V (List.mem_cons_of_mem U hV)
    simp [VariantHelper.copy, hU, ih hUs]

theorem VariantHelper.destroy_hit (L : Lang Ty Val) (Ts : List Ty) (T : Ty)
    (data : Data Ty Val) (w : World Ty Val) (hT : T ∈ Ts)
    (h : ∀ U ∈ Ts, L.hash_code U = L.hash_code T → U = T) :
    VariantHelper.destroy L Ts (.hash (L.hash_code T)) data w = destroy_in_place T data w := by
  induction Ts with
  | nil => simp at hT
  | cons U Us ih =>
    by_cases hU : L.hash_code U = L.hash_code T
    · have hUT : U = T := h U (List.mem_cons_self U Us) hU
      subst hUT
      simp [VariantHelper.destroy]
    · have hne : T ≠ U := fun e => hU (by rw [e])
      have hmem : T ∈ Us := by
        rcases List.mem_cons.mp hT with e | e
        · exact absurd e hne
        · exact e
      have hne2 : L.hash_code T ≠ L.hash_code U := fun e => hU e.symm
      simp [VariantHelper.destroy, hne2,
        ih hmem (fun V hV => h V (List.mem_cons_of_mem U hV))]

theorem VariantHelper.move_hit (L : Lang Ty Val) (Ts : List Ty) (T : Ty)
    (old_data new_data : Data Ty Val) (w : World Ty Val) (hT : T ∈ Ts)
    (h : ∀ U ∈ Ts, L.hash_code U = L.hash_code T → U = T) :
    VariantHelper.move L Ts (.hash (L.hash_code T)) old_data new_data w
      = move_construct L T old_data w := by
  induction Ts with
  | nil => simp at hT
  | cons U Us ih =>
    by_cases hU : L.hash_code U = L.hash_code T
    · have hUT : U = T := h U (List.mem_cons_self U Us) hU
      subst hUT
      simp [VariantHelper.move]
    · have hne : T ≠ U := fun e => hU (by rw [e])
      have hmem : T ∈ Us := by
        rcases List.mem_cons.mp hT with e | e
        · exact absurd e hne
        · exact e
      have hne2 : L.hash_code T ≠ L.hash_code U := fun e => hU e.symm
      simp [VariantHelper.move, hne2,
        ih hmem (fun V hV => h V (List.mem_cons_of_mem U hV))]

theorem VariantHelper.copy_hit (L : Lang Ty Val) (Ts : List Ty) (T : Ty)
    (old_data new_data : Data Ty Val) (w : World Ty Val) (hT : T ∈ Ts)
    (h : ∀ U ∈ Ts, L.hash_code U = L.hash_code T → U = T) :
    VariantHelper.copy L Ts (.hash (L.hash_code T)) old_data new_data w
      = copy_construct L T old_data new_data w := by
  induction Ts with
  | nil => simp at hT
  | cons U Us ih =>
    by_cases hU : L.hash_code U = L.hash_code T
    · have hUT : U = T := h U (List.mem_cons_self U Us) hU
      subst hUT
      simp [VariantHelper.copy]
    · have hne : T ≠ U := fun e => hU (by rw [e])
      have hmem : T ∈ Us := by
        rcases List.mem_cons.mp hT with e | e
        · exact absurd e hne
        · exact e
      have hne2 : L.hash_code T ≠ L.hash_code U := fun e => hU e.symm
      simp [VariantHelper.copy, hne2,
        ih hmem (fun V hV => h V (List.mem_cons_of_mem U hV))]

/-- Without collisions the empty sentinel matches no alternative. -/
theorem CollisionFree.void_miss {L : Lang Ty Val} {Ts : List Ty} (hcf : CollisionFree L Ts) :
    ∀ U ∈ Ts, (TypeId.hash (L.hash_code L.void) : TypeId Ty) ≠ .hash (L.hash_code U) := by
  intro U hU e
  have e1 : L.hash_code L.void = L.hash_code U := by injection e
  have e2 : L.void = U :=
    hcf.2 L.void (List.mem_cons_self _ _) U (List.mem_cons_of_mem _ hU) e1
  exact hcf.1 (e2 ▸ hU)

/-- Without collisions an alternative is the only one with its identifier. -/
theorem CollisionFree.unique {L : Lang Ty Val} {Ts : List Ty} (hcf : CollisionFree L Ts)
    {T : Ty} (hT : T ∈ Ts) : ∀ U ∈ Ts, L.hash_code U = L.hash_code T → U = T :=
  fun U hU e => hcf.2 U (List.mem_cons_of_mem _ hU) T (List.mem_cons_of_mem _ hT) e

/-- The trait `FindType` decides membership in the pack. -/
theorem Variant.FindType_iff (T : Ty) (Ts : List Ty) :
    Variant.FindType T Ts = true ↔ T ∈ Ts := by
  induction Ts with
  | nil => simp [Variant.FindType]
  | cons U Us ih => simp [Variant.FindType, ih]

/-- The environment of the instance is free of collisions. -/
theorem lang0_collisionFree : CollisionFree lang0 Ts0 := by
  refine ⟨by decide, ?_⟩
  intro T _ U _ h
  cases T <;> cases U <;> first | rfl | (simp [lang0] at h)

/-- A successful `set<T>` was given a constructed value and leaves the
discriminant `typeid(T)` with the new object in the buffer. -/
theorem Variant.set_ok_inv (L : Lang Ty Val) (Ts : List Ty) (T : Ty) (args : Option Val)
    (c c1 : Variant Ty Val) (w w1 : World Ty Val)
    (h : Variant.set L Ts T args c w = some (.ok (), c1, w1)) :
    c1.type_id = .info T ∧ ∃ o, c1.data = some o ∧ o.type = T ∧ args = some o.value := by
  unfold Variant.set at h
  split at h
  · simp at h
  · split at h
    · simp at h
    · split at h
      · simp at h
      · simp only [Option.some.injEq, Prod.mk.injEq, true_and] at h
        obtain ⟨h1, -⟩ := h
        subst h1
        exact ⟨rfl, _, rfl, rfl, rfl⟩

/-- On a well-formed container `set<T>` of a member alternative with a
constructed value returns normally. -/
theorem Variant.set_returns (L : Lang Ty Val) (Ts : List Ty) (T : Ty) (v : Val)
    (c : Variant Ty Val) (w : World Ty Val) (hcf : CollisionFree L Ts)
    (hwf : Variant.WellFormed L Ts c) (hT : T ∈ Ts) :
    ∃ c1 w1, Variant.set L Ts T (some v) c w = some (.ok (), c1, w1) := by
  have hfind : Variant.FindType T Ts = true := (Variant.FindType_iff T Ts).mpr hT
  rcases hwf with ⟨ht, hd⟩ | ⟨o, ho, ht, hd⟩
  · simp [Variant.set, hfind, ht, hd, VariantHelper.destroy_miss L Ts _ _ _ hcf.void_miss]
  · simp [Variant.set, hfind, ht, hd, VariantHelper.destroy_hit L Ts _ _ _ ho (hcf.unique ho),
      destroy_in_place]

/-! ## Claims about `set` and `get` -/

/-- C1 (round trip), evaluated on the code: in `Variant<int, std::string>`, on
a default-constructed container, `set<int>(42)` returns normally and leaves the
discriminant `typeid(int)`; the following `get<int>()` compares it with
`typeid(int).hash_code()` and throws `std::bad_cast` instead of returning 42. -/
theorem set_then_get_throws :
    Variant.set lang0 Ts0 .int (some (.int 42)) (Variant.default_ctor lang0) world0
      = some (.ok (), ⟨.info .int, some ⟨0, .int, .int 42⟩⟩,
          ⟨1, [.constructed ⟨0, .int, .int 42⟩]⟩)
    ∧ Variant.get lang0 .int ⟨.info .int, some ⟨0, .int, .int 42⟩⟩
      = some (.error .bad_cast, ⟨.info .int, some ⟨0, .int, .int 42⟩⟩) :=
  ⟨rfl, rfl⟩

/-- Once the body of `set<T>` has run as written, the discriminant is not a
`size_t` and `get<U>()` throws `std::bad_cast` for every type `U`, `T`
included. -/
theorem Variant.get_after_set (L : Lang Ty Val) (Ts : List Ty) (T U : Ty)
    (args : Option Val) (c c1 : Variant Ty Val) (w w1 : World Ty Val)
    (hset : Variant.set L Ts T args c w = some (.ok (), c1, w1)) :
    TypeId.is_size_t c1.type_id = false ∧
    Variant.get L U c1 = some (.error .bad_cast, c1) := by
  have h := (Variant.set_ok_inv L Ts T args c c1 w w1 hset).1
  simp [Variant.get, h, TypeId.is_size_t]

/-- C3: `get<T>()` throws `std::bad_cast` when the discriminant does not
identify `T` and returns the value of the live object when it does; it returns
a value only when the discriminant identifies `T`, that value is the stored
one, and in every case the container is left as it was.  In a well-formed
container over a collision-free pack the second case always applies to an
alternative the discriminant identifies. -/
theorem get_by_discriminant (L : Lang Ty Val) (T : Ty) (c : Variant Ty Val) :
    (Variant.is L T c = false → Variant.get L T c = some (.error .bad_cast, c)) ∧
    (Variant.is L T c = true → ∀ o, c.data = some o → o.type = T →
      Variant.get L T c = some (.ok o.value, c)) ∧
    (∀ v c1, Variant.get L T c = some (.ok v, c1) →
      Variant.is L T c = true ∧ c.data.map Object.value = some v) ∧
    (∀ r c1, Variant.get L T c = some (r, c1) → c1 = c) ∧
    (∀ Ts, CollisionFree L Ts → Variant.WellFormed L Ts c → T ∈ Ts →
      Variant.is L T c = true →
      ∃ o, c.data = some o ∧ o.type = T ∧ Variant.get L T c = some (.ok o.value, c)) := by
  refine ⟨?_, ?_, ?_, ?_, ?_⟩
  · intro h
    simp only [Variant.is, decide_eq_false_iff_not] at h
    simp [Variant.get, h]
  · intro h o hd ht
    simp only [Variant.is, decide_eq_true_eq] at h
    simp [Variant.get, h, hd, ht]
  · intro v c1 h
    unfold Variant.get at h
    split at h
    · rename_i hid
      split at h
      · rename_i o hd
        split at h
        · simp only [Option.some.injEq, Prod.mk.injEq, Except.ok.injEq] at h
          simp [Variant.is, hid, hd, h.1]
        · simp at h
      · simp at h
    · simp at h
  · intro r c1 h
    unfold Variant.get at h
    split at h
    · split at h
      · split at h
        · simp only [Option.some.injEq, Prod.mk.injEq] at h
          exact h.2.symm
        · simp at h
      · simp at h
    · simp only [Option.some.injEq, Prod.mk.injEq] at h
      exact h.2.symm
  · intro Ts hcf hwf hT h
    simp only [Variant.is, decide_eq_true_eq] at h
    rcases hwf with ⟨ht, -⟩ | ⟨o, ho, ht, hd⟩
    · exact absurd (ht.symm.trans h) (hcf.void_miss T hT)
    · have e1 : L.hash_code o.type = L.hash_code T := by
        have := ht.symm.trans h
        injection this
      have e2 : o.type = T := hcf.unique hT o.type ho e1
      exact ⟨o, hd, e2, by simp [Variant.get, h, hd, e2]⟩

theorem get_by_discriminant_witness :
    Variant.get lang0 .int c_hi = some (.error .bad_cast, c_hi) ∧
    Variant.get lang0 .string c_hi = some (.ok (.string "hi"), c_hi) ∧
    (∃ o, c_hi.data = some o ∧ o.type = CType.string ∧
      Variant.get lang0 .string c_hi = some (.ok o.value, c_hi)) :=
  ⟨(get_by_discriminant lang0 .int c_hi).1 rfl,
   (get_by_discriminant lang0 .string c_hi).2.1 rfl _ rfl rfl,
   (get_by_discriminant lang0 .string c_hi).2.2.2.2 Ts0 lang0_collisionFree
     (Or.inr ⟨⟨0, .string, .string "hi"⟩, by decide, rfl, rfl⟩) (by decide) rfl⟩

/-- C4 (discriminant after `set`), evaluated on the code: in
`Variant<int, std::string>`, after `set<int>(42)` on a default-constructed
container the discriminant is `typeid(int)`, which `is<int>()` compares with
`typeid(int).hash_code()`: `is<int>()` is false.  `is<std::string>()` is false
and `valid` is true. -/
theorem is_false_after_set :
    (Variant.set lang0 Ts0 .int (some (.int 42)) (Variant.default_ctor lang0) world0).map
      (fun r => (r.1, r.2.1.type_id, Variant.is lang0 .int r.2.1,
        Variant.is lang0 .string r.2.1, Variant.valid lang0 .int r.2.1))
      = some (.ok (), .info .int, false, false, true) :=
  rfl

/-- C5 (empty default): provided no alternative shares its hash code with
`void`, a default-constructed container has the empty sentinel as
discriminant and no object in its buffer, `valid<T>()` is false for every `T`,
and `get<T>()` throws `std::bad_cast` for every alternative `T` of the pack. -/
theorem default_ctor_is_empty (L : Lang Ty Val) (Ts : List Ty)
    (h : ∀ T ∈ Ts, L.hash_code T ≠ L.hash_code L.void) :
    (Variant.default_ctor L).type_id = .hash (L.hash_code L.void) ∧
    (Variant.default_ctor L).data = none ∧
    (∀ T, Variant.valid L T (Variant.default_ctor L) = false) ∧
    (∀ T ∈ Ts, Variant.get L T (Variant.default_ctor L)
      = some (.error .bad_cast, Variant.default_ctor L)) := by
  refine ⟨rfl, rfl, ?_, ?_⟩
  · intro T
    simp [Variant.valid, Variant.default_ctor]
  · intro T hT
    have hne : L.hash_code L.void ≠ L.hash_code T := fun e => h T hT e.symm
    simp [Variant.get, Variant.default_ctor, hne]

theorem default_ctor_is_empty_witness :
    (∀ T ∈ Ts0, lang0.hash_code T ≠ lang0.hash_code lang0.void) ∧
    Variant.valid lang0 CType.int (Variant.default_ctor lang0) = false ∧
    Variant.get lang0 CType.string (Variant.default_ctor lang0)
      = some (.error .bad_cast, Variant.default_ctor lang0) :=
  ⟨by decide,
   (default_ctor_is_empty lang0 Ts0 (by decide)).2.2.1 CType.int,
   (default_ctor_is_empty lang0 Ts0 (by decide)).2.2.2 CType.string (by decide)⟩

/-! ## Evaluation on the states of the data model -/

theorem Variant.dtor_empty (L : Lang Ty Val) (Ts : List Ty) (c : Variant Ty Val)
    (w : World Ty Val) (hcf : CollisionFree L Ts) (he : Variant.Empty L c) :
    Variant.dtor L Ts c w = some w := by
  simp [Variant.dtor, he.1, VariantHelper.destroy_miss L Ts _ _ _ hcf.void_miss]

theorem Variant.dtor_occupied (L : Lang Ty Val) (Ts : List Ty) (c : Variant Ty Val)
    (o : Object Ty Val) (w : World Ty Val) (hcf : CollisionFree L Ts)
    (ho : Variant.Occupied L Ts c o) :
    Variant.dtor L Ts c w = some { w with trace := w.trace ++ [.destructed o] } := by
  obtain ⟨hT, ht, hd⟩ := ho
  simp [Variant.dtor, ht, hd, VariantHelper.destroy_hit L Ts _ _ _ hT (hcf.unique hT),
    destroy_in_place]

theorem Variant.move_ctor_occupied (L : Lang Ty Val) (Ts : List Ty) (c : Variant Ty Val)
    (o : Object Ty Val) (w : World Ty Val) (hcf : CollisionFree L Ts)
    (ho : Variant.Occupied L Ts c o) :
    Variant.move_ctor L Ts c w
      = some (⟨c.type_id, some { o with value := L.moved_from o.type o.value }⟩,
          ⟨c.type_id, some ⟨w.next, o.type, o.value⟩⟩,
          ⟨w.next + 1, w.trace ++ [.constructed ⟨w.next, o.type, o.value⟩]⟩) := by
  obtain ⟨hT, ht, hd⟩ := ho
  simp [Variant.move_ctor, ht, hd, VariantHelper.move_hit L Ts _ _ _ _ hT (hcf.unique hT),
    move_construct]

theorem Variant.copy_ctor_empty (L : Lang Ty Val) (Ts : List Ty) (c : Variant Ty Val)
    (w : World Ty Val) (hcf : CollisionFree L Ts) (he : Variant.Empty L c) :
    Variant.copy_ctor L Ts c w = some (.ok c, c, w) := by
  obtain ⟨ht, hd⟩ := he
  cases c with
  | mk t d =>
    simp only at ht hd
    subst ht hd
    simp [Variant.copy_ctor, VariantHelper.copy_miss L Ts _ _ _ _ hcf.void_miss]

theorem Variant.copy_ctor_occupied (L : Lang Ty Val) (Ts : List Ty) (c : Variant Ty Val)
    (o : Object Ty Val) (w : World Ty Val) (hcf : CollisionFree L Ts)
    (ho : Variant.Occupied L Ts c o) (hcopy : L.copy_throws o.type o.value = false) :
    Variant.copy_ctor L Ts c w
      = some (.ok ⟨c.type_id, some ⟨w.next, o.type, o.value⟩⟩, c,
          ⟨w.next + 1, w.trace ++ [.constructed ⟨w.next, o.type, o.value⟩]⟩) := by
  obtain ⟨hT, ht, hd⟩ := ho
  cases c with
  | mk t d =>
    simp only at ht hd
    subst ht hd
    simp [Variant.copy_ctor, VariantHelper.copy_hit L Ts _ _ _ _ hT (hcf.unique hT),
      copy_construct, hcopy]

/-- An occupied container is reported as holding a value. -/
theorem Variant.valid_occupied (L : Lang Ty Val) (Ts : List Ty) (c : Variant Ty Val)
    (o : Object Ty Val) (hcf : CollisionFree L Ts) (ho : Variant.Occupied L Ts c o) (T : Ty) :
    Variant.valid L T c = true := by
  obtain ⟨hT, ht, -⟩ := ho
  have := hcf.void_miss o.type hT
  simp only [Variant.valid, decide_eq_true_eq, ht]
  exact fun e => this e.symm

/-! ## Claims about move construction -/

/-- C6 as stated fails: in `Variant<int, std::string>`, after a container is
move-constructed from the container `c_hi`, which holds the string `"hi"`,
`c_hi` is not empty: its discriminant is not the empty sentinel and `valid`
is not false on it. -/
theorem move_ctor_source_not_emptied :
    ¬ ∀ c1' c2 w1, Variant.move_ctor lang0 Ts0 c_hi world2 = some (c1', c2, w1) →
        c1'.type_id = .hash (lang0.hash_code lang0.void) ∨
        Variant.valid lang0 CType.string c1' = false := by
  intro h
  have h1 := h ⟨.hash 2, some ⟨0, .string, .string ""⟩⟩
    ⟨.hash 2, some ⟨2, .string, .string "hi"⟩⟩
    ⟨3, world2.trace ++ [.constructed ⟨2, .string, .string "hi"⟩]⟩ (by rfl)
  revert h1
  decide

/-- C6 amended: when `c2` is move-constructed from a container `c1` occupied by
an object of alternative `T` with value `v`, `c2` is occupied by a new object of
type `T` with value `v`, and `c1` keeps its discriminant and stays occupied, by
its moved-from object: `valid` is true on `c1` and `is<T>()` is true on it. -/
theorem move_ctor_keeps_source_occupied (L : Lang Ty Val) (Ts : List Ty)
    (c1 : Variant Ty Val) (o : Object Ty Val) (w : World Ty Val)
    (hcf : CollisionFree L Ts) (ho : Variant.Occupied L Ts c1 o) :
    ∃ c1' c2 w1, Variant.move_ctor L Ts c1 w = some (c1', c2, w1) ∧
      Variant.Occupied L Ts c2 ⟨w.next, o.type, o.value⟩ ∧
      Variant.Occupied L Ts c1' { o with value := L.moved_from o.type o.value } ∧
      c1'.type_id = c1.type_id ∧
      (∀ T, Variant.valid L T c1' = true) ∧
      Variant.is L o.type c1' = true := by
  have ho2 : Variant.Occupied L Ts ⟨c1.type_id, some ⟨w.next, o.type, o.value⟩⟩
      ⟨w.next, o.type, o.value⟩ := ⟨ho.1, ho.2.1, rfl⟩
  have ho1 : Variant.Occupied L Ts
      ⟨c1.type_id, some { o with value := L.moved_from o.type o.value }⟩
      { o with value := L.moved_from o.type o.value } := ⟨ho.1, ho.2.1, rfl⟩
  refine ⟨_, _, _, Variant.move_ctor_occupied L Ts c1 o w hcf ho, ho2, ho1, rfl, ?_, ?_⟩
  · exact Variant.valid_occupied L Ts _ _ hcf ho1
  · simp [Variant.is, ho.2.1]

theorem move_ctor_keeps_source_occupied_witness :
    ∃ c1' c2 w1, Variant.move_ctor lang0 Ts0 c_hi world2 = some (c1', c2, w1) ∧
      Variant.Occupied lang0 Ts0 c2 ⟨2, .string, .string "hi"⟩ ∧
      Variant.Occupied lang0 Ts0 c1' ⟨0, .string, .string ""⟩ ∧
      c1'.type_id = c_hi.type_id ∧
      (∀ T, Variant.valid lang0 T c1' = true) ∧
      Variant.is lang0 CType.string c1' = true :=
  move_ctor_keeps_source_occupied lang0 Ts0 c_hi ⟨0, .string, .string "hi"⟩ world2
    lang0_collisionFree ⟨by decide, rfl, rfl⟩

/-- C7 as stated fails: in `Variant<int, std::string>`, move-constructing from
`c_hi` and then destroying both containers runs two destructors, not exactly
one: the destructor of the source destroys its moved-from string. -/
theorem move_then_destroy_both_not_once :
    move_then_destroy_both lang0 Ts0 c_hi world2
      = some [.constructed ⟨2, .string, .string "hi"⟩,
          .destructed ⟨2, .string, .string "hi"⟩,
          .destructed ⟨0, .string, .string ""⟩] ∧
    (move_then_destroy_both lang0 Ts0 c_hi world2).map destructions = some 2 ∧
    ¬ (move_then_destroy_both lang0 Ts0 c_hi world2).map destructions = some 1 :=
  ⟨by rfl, by decide, by decide⟩

/-- C7 amended: when `c2` is move-constructed from an occupied `c1` and both are
destroyed, one object is constructed and the destroy dispatch runs exactly two
destructors of the held alternative: that of the object move-constructed into
`c2` and that of the moved-from object still in `c1`.  They are two objects, so
none is destroyed twice. -/
theorem move_then_destroy_both_twice (L : Lang Ty Val) (Ts : List Ty)
    (c1 : Variant Ty Val) (o : Object Ty Val) (w : World Ty Val)
    (hcf : CollisionFree L Ts) (ho : Variant.Occupied L Ts c1 o)
    (hfresh : o.serial < w.next) :
    ∃ es, move_then_destroy_both L Ts c1 w = some es ∧
      es = [.constructed ⟨w.next, o.type, o.value⟩,
            .destructed ⟨w.next, o.type, o.value⟩,
            .destructed { o with value := L.moved_from o.type o.value }] ∧
      constructions es = 1 ∧ destructions es = 2 ∧
      ((destructed_objects es).map Object.serial).Nodup := by
  have ho2 : Variant.Occupied L Ts ⟨c1.type_id, some ⟨w.next, o.type, o.value⟩⟩
      ⟨w.next, o.type, o.value⟩ := ⟨ho.1, ho.2.1, rfl⟩
  have ho1 : Variant.Occupied L Ts
      ⟨c1.type_id, some { o with value := L.moved_from o.type o.value }⟩
      { o with value := L.moved_from o.type o.value } := ⟨ho.1, ho.2.1, rfl⟩
  refine ⟨_, ?_, rfl, ?_, ?_, ?_⟩
  · simp [move_then_destroy_both, Variant.move_ctor_occupied L Ts c1 o w hcf ho,
      Variant.dtor_occupied L Ts _ _ _ hcf ho2, Variant.dtor_occupied L Ts _ _ _ hcf ho1]
  · simp [constructions]
  · simp [destructions]
  · simp [destructed_objects]
    omega

theorem move_then_destroy_both_twice_witness :
    ∃ es, move_then_destroy_both lang0 Ts0 c_hi world2 = some es ∧
      es = [.constructed ⟨2, .string, .string "hi"⟩,
            .destructed ⟨2, .string, .string "hi"⟩,
            .destructed ⟨0, .string, .string ""⟩] ∧
      constructions es = 1 ∧ destructions es = 2 ∧
      ((destructed_objects es).map Object.serial).Nodup :=
  move_then_destroy_both_twice lang0 Ts0 c_hi ⟨0, .string, .string "hi"⟩ world2
    lang0_collisionFree ⟨by decide, rfl, rfl⟩ (by decide)

/-! ## Claims about copy construction and assignment -/

theorem destructed_objects_append (es fs : List (Event Ty Val)) :
    destructed_objects (es ++ fs) = destructed_objects es ++ destructed_objects fs := by
  induction es with
  | nil => rfl
  | cons e es ih => cases e <;> simp [destructed_objects, ih]

/-- On a well-formed container `set<T>` of a member alternative destroys the
held object, if any, and then constructs the new one, unless the constructor
throws. -/
theorem Variant.set_member (L : Lang Ty Val) (Ts : List Ty) (T : Ty) (args : Option Val)
    (c : Variant Ty Val) (w : World Ty Val) (hcf : CollisionFree L Ts)
    (hwf : Variant.WellFormed L Ts c) (hT : Variant.FindType T Ts = true) :
    Variant.set L Ts T args c w
      = match args with
        | none => some (.error .alternative_ctor, ⟨c.type_id, none⟩,
            ⟨w.next, w.trace ++ c.data.toList.map .destructed⟩)
        | some v => some (.ok (), ⟨.info T, some ⟨w.next, T, v⟩⟩,
            ⟨w.next + 1, w.trace ++ c.data.toList.map .destructed
              ++ [.constructed ⟨w.next, T, v⟩]⟩) := by
  rcases hwf with ⟨ht, hd⟩ | ⟨o, ho, ht, hd⟩
  · cases args <;>
      simp [Variant.set, hT, ht, hd, VariantHelper.destroy_miss L Ts _ _ _ hcf.void_miss]
  · cases args <;>
      simp [Variant.set, hT, ht, hd,
        VariantHelper.destroy_hit L Ts _ _ _ ho (hcf.unique ho), destroy_in_place]

/-- C8 (copy): for a well-formed container `c1` whose alternative's copy
constructor does not throw, `Variant(const Variant &)` returns a container `c2`
and leaves `c1` as it was; `c2` has the discriminant of `c1` and, when `c1` is
occupied, an object of the same type and value; that object is a new one, not
the object of `c1`.  A later `c2.get<T>() = v` writes to the object of `c2`,
and a later `c2.set<T>(args)` destroys no object of `c1`: the member functions
called on `c2` act on the buffer of `c2` only. -/
theorem copy_ctor_mirrors_and_is_independent (L : Lang Ty Val) (Ts : List Ty)
    (c1 : Variant Ty Val) (w : World Ty Val) (hcf : CollisionFree L Ts)
    (hwf : Variant.WellFormed L Ts c1)
    (hcopy : ∀ o, c1.data = some o → L.copy_throws o.type o.value = false)
    (hfresh : ∀ o, c1.data = some o → o.serial < w.next) :
    ∃ c2 w1, Variant.copy_ctor L Ts c1 w = some (.ok c2, c1, w1) ∧
      c2.type_id = c1.type_id ∧
      c2.data.map Object.type = c1.data.map Object.type ∧
      c2.data.map Object.value = c1.data.map Object.value ∧
      Variant.WellFormed L Ts c2 ∧
      (∀ o1 o2, c1.data = some o1 → c2.data = some o2 → o1.serial ≠ o2.serial) ∧
      (∀ T v r c3, Variant.get_write L T v c2 = some (r, c3) →
        c3.type_id = c2.type_id ∧
        c3.data.map Object.serial = c2.data.map Object.serial) ∧
      (∀ T args r c3 w2 es, Variant.set L Ts T args c2 w1 = some (r, c3, w2) →
        w2.trace = w1.trace ++ es →
        ∀ o1, c1.data = some o1 → o1 ∉ destructed_objects es ∧ c3.data ≠ some o1) := by
  have hwrite : ∀ (c2 : Variant Ty Val) T v r c3,
      Variant.get_write L T v c2 = some (r, c3) →
      c3.type_id = c2.type_id ∧
      c3.data.map Object.serial = c2.data.map Object.serial := by
    intro c2 T v r c3 h
    unfold Variant.get_write Variant.get at h
    split at h
    · simp at h
    · rename_i e c4 hg
      split at hg
      · split at hg
        · split at hg <;> simp at hg
        · simp at hg
      · simp only [Option.some.injEq, Prod.mk.injEq] at hg h
        rw [← h.2, ← hg.2]
        exact ⟨rfl, rfl⟩
    · rename_i x c4 hg
      split at hg
      · split at hg
        · split at hg
          · simp only [Option.some.injEq, Prod.mk.injEq] at hg h
            rw [← h.2, ← hg.2]
            refine ⟨rfl, ?_⟩
            cases c2.data <;> simp
          · simp at hg
        · simp at hg
      · simp at hg
  rcases hwf with he | ⟨o, ho⟩
  · have hwf2 : Variant.WellFormed L Ts c1 := Or.inl he
    refine ⟨c1, w, Variant.copy_ctor_empty L Ts c1 w hcf he, rfl, rfl, rfl, hwf2, ?_,
      hwrite c1, ?_⟩
    · intro o1 o2 h1
      simp [he.2] at h1
    · intro T args r c3 w2 es hs htr o1 h1
      simp [he.2] at h1
  · have hd : c1.data = some o := ho.2.2
    have hc : L.copy_throws o.type o.value = false := hcopy o hd
    have hs : o.serial < w.next := hfresh o hd
    have ho2 : Variant.Occupied L Ts ⟨c1.type_id, some ⟨w.next, o.type, o.value⟩⟩
        ⟨w.next, o.type, o.value⟩ := ⟨ho.1, ho.2.1, rfl⟩
    refine ⟨_, _, Variant.copy_ctor_occupied L Ts c1 o w hcf ho hc, rfl, ?_, ?_,
      Or.inr ⟨_, ho2⟩, ?_, hwrite _, ?_⟩
    · simp [hd]
    · simp [hd]
    · intro o1 o2 h1 h2
      rw [hd] at h1
      simp only [Option.some.injEq] at h1 h2
      subst h1 h2
      exact Nat.ne_of_lt hs
    · intro T args r c3 w2 es hset htr o1 h1
      rw [hd] at h1
      simp only [Option.some.injEq] at h1
      subst h1
      by_cases hT : Variant.FindType T Ts = true
      · rw [Variant.set_member L Ts T args _ _ hcf (Or.inr ⟨_, ho2⟩) hT] at hset
        cases args with
        | none =>
          simp only [Option.some.injEq, Prod.mk.injEq] at hset
          obtain ⟨-, h3, h4⟩ := hset
          subst h3 h4
          simp only [Option.toList_some, List.map_cons, List.map_nil,
            List.append_cancel_left_eq] at htr
          subst htr
          simp only [destructed_objects, List.mem_singleton, ne_eq, reduceCtorEq,
            not_false_eq_true, and_true]
          intro e
          rw [e] at hs
          exact Nat.lt_irrefl _ hs
        | some v =>
          simp only [Option.some.injEq, Prod.mk.injEq] at hset
          obtain ⟨-, h3, h4⟩ := hset
          subst h3 h4
          simp only [Option.toList_some, List.map_cons, List.map_nil, List.append_assoc,
            List.append_cancel_left_eq] at htr
          subst htr
          simp only [List.singleton_append, destructed_objects, List.mem_singleton, ne_eq,
            Option.some.injEq]
          constructor
          · intro e
            rw [e] at hs
            exact Nat.lt_irrefl _ hs
          · intro e
            rw [← e] at hs
            simp at hs
      · have hT2 : Variant.FindType T Ts = false := by simpa using hT
        simp only [Variant.set, hT2, Bool.not_false, ↓reduceIte, Option.some.injEq,
          Prod.mk.injEq] at hset
        obtain ⟨-, h3, h4⟩ := hset
        subst h3 h4
        have hes : es = [] := by
          have := htr
          simpa using this
        subst hes
        refine ⟨by simp [destructed_objects], ?_⟩
        intro e
        simp only [Option.some.injEq] at e
        rw [← e] at hs
        exact Nat.lt_irrefl _ hs

theorem copy_ctor_mirrors_and_is_independent_witness :
    ∃ c2 w1, Variant.copy_ctor lang0 Ts0 c_hi world2 = some (.ok c2, c_hi, w1) ∧
      c2.type_id = c_hi.type_id ∧
      c2.data.map Object.type = c_hi.data.map Object.type ∧
      c2.data.map Object.value = c_hi.data.map Object.value ∧
      Variant.WellFormed lang0 Ts0 c2 ∧
      (∀ o1 o2, c_hi.data = some o1 → c2.data = some o2 → o1.serial ≠ o2.serial) :=
  let ⟨c2, w1, h1, h2, h3, h4, h5, h6, _⟩ :=
    copy_ctor_mirrors_and_is_independent lang0 Ts0 c_hi world2 lang0_collisionFree
      (Or.inr ⟨⟨0, .string, .string "hi"⟩, by decide, rfl, rfl⟩)
      (fun _ _ => rfl)
      (by intro o h; cases h; decide)
  ⟨c2, w1, h1, h2, h3, h4, h5, h6⟩

theorem swap_data_bytewise (L : Lang Ty Val) (data rhs_data : Data Ty Val)
    (h1 : bytewise_copyable L data = true) (h2 : bytewise_copyable L rhs_data = true) :
    swap_data L data rhs_data = some (rhs_data, data) := by
  simp [swap_data, h1, h2]

/-- Assignment between well-formed containers whose objects, if any, are of
trivially copyable types, the copy constructor of `b`'s alternative not
throwing: `a = b` returns normally; the temporary `rhs` is copy-constructed
from `b`, which is left as it was, and `a` ends up with the discriminant and
buffer of `rhs`.  The only destructor call is the one made by `~Variant()` on
the temporary, which after the swap has the former discriminant and buffer of
`a`. -/
theorem Variant.assign_bytewise (L : Lang Ty Val) (Ts : List Ty) (a b : Variant Ty Val)
    (w : World Ty Val) (hcf : CollisionFree L Ts)
    (hwa : Variant.WellFormed L Ts a) (hwb : Variant.WellFormed L Ts b)
    (hcopy : ∀ o, b.data = some o → L.copy_throws o.type o.value = false)
    (hta : bytewise_copyable L a.data = true) (htb : bytewise_copyable L b.data = true) :
    ∃ rhs a1 w1 w2 es,
      Variant.copy_ctor L Ts b w = some (.ok rhs, b, w1) ∧
      Variant.assign L Ts a b w = some (.ok (), a1, b, w2) ∧
      a1 = rhs ∧
      a1.type_id = b.type_id ∧
      a1.data.map Object.type = b.data.map Object.type ∧
      a1.data.map Object.value = b.data.map Object.value ∧
      Variant.dtor L Ts ⟨a.type_id, a.data⟩ w1 = some w2 ∧
      w1.trace = w.trace ++ a1.data.toList.map .constructed ∧
      w2.trace = w1.trace ++ a.data.toList.map .destructed ∧
      w2.trace = w.trace ++ es ∧
      destructed_objects es = a.data.toList ∧
      destructions es = a.data.toList.length := by
  have hdtor : ∀ w1 : World Ty Val, Variant.dtor L Ts ⟨a.type_id, a.data⟩ w1
      = some ⟨w1.next, w1.trace ++ a.data.toList.map .destructed⟩ := by
    intro w1
    rcases hwa with he | ⟨o, ho⟩
    · rw [Variant.dtor_empty L Ts _ w1 hcf he]
      simp [he.2]
    · rw [Variant.dtor_occupied L Ts _ o w1 hcf ho]
      simp [ho.2.2]
  have hda : ∀ es : List (Event Ty Val),
      destructed_objects (es ++ a.data.toList.map .destructed)
        = destructed_objects es ++ a.data.toList ∧
      destructions (es ++ a.data.toList.map .destructed)
        = destructions es + a.data.toList.length := by
    intro es
    cases a.data <;> simp [destructed_objects_append, destructed_objects, destructions]
  rcases hwb with he | ⟨o, ho⟩
  · have hc := Variant.copy_ctor_empty L Ts b w hcf he
    have hsw := swap_data_bytewise L a.data b.data hta htb
    refine ⟨b, b, w, _, a.data.toList.map .destructed, hc, ?_, rfl, rfl, rfl, rfl, hdtor w,
      ?_, rfl, rfl, ?_, ?_⟩
    · simp [Variant.assign, hc, Variant.operator_assign, hsw, hdtor w]
    · simp [he.2]
    · simpa [destructed_objects] using (hda []).1
    · simpa [destructions] using (hda []).2
  · have hd : b.data = some o := ho.2.2
    have hc := Variant.copy_ctor_occupied L Ts b o w hcf ho (hcopy o hd)
    have htn : bytewise_copyable L (some ⟨w.next, o.type, o.value⟩) = true := by
      rw [hd] at htb
      exact htb
    have hsw := swap_data_bytewise L a.data (some ⟨w.next, o.type, o.value⟩) hta htn
    refine ⟨_, _, _, _,
      [.constructed ⟨w.next, o.type, o.value⟩] ++ a.data.toList.map .destructed,
      hc, ?_, rfl, rfl, ?_, ?_, hdtor _, ?_, rfl, ?_, ?_, ?_⟩
    · simp [Variant.assign, hc, Variant.operator_assign, hsw, hdtor]
    · simp [hd]
    · simp [hd]
    · simp
    · simp
    · simpa [destructed_objects] using (hda [.constructed ⟨w.next, o.type, o.value⟩]).1
    · simpa [destructions] using (hda [.constructed ⟨w.next, o.type, o.value⟩]).2

/-- Self-assignment of a well-formed container whose object, if any, is of a
trivially copyable type, the copy constructor not throwing: `c = c` returns
normally and leaves `c` with the same discriminant and an object of the same
type and value; one object is constructed (the copy) and one destructor runs,
on the object `c` held before; destroying `c` later destroys the other. -/
theorem Variant.self_assign_bytewise (L : Lang Ty Val) (Ts : List Ty)
    (c : Variant Ty Val) (w : World Ty Val) (hcf : CollisionFree L Ts)
    (hwf : Variant.WellFormed L Ts c)
    (hcopy : ∀ o, c.data = some o → L.copy_throws o.type o.value = false)
    (hfresh : ∀ o, c.data = some o → o.serial < w.next)
    (htc : bytewise_copyable L c.data = true) :
    ∃ c1 w2 es,
      Variant.self_assign L Ts c w = some (.ok (), c1, w2) ∧
      c1.type_id = c.type_id ∧
      c1.data.map Object.type = c.data.map Object.type ∧
      c1.data.map Object.value = c.data.map Object.value ∧
      w2.trace = w.trace ++ es ∧
      constructions es = c.data.toList.length ∧
      destructions es = c.data.toList.length ∧
      destructed_objects es = c.data.toList ∧
      (∀ o, c1.data = some o → o ∉ destructed_objects es) ∧
      ∃ w3, Variant.dtor L Ts c1 w2 = some w3 ∧
        w3.trace = w2.trace ++ c1.data.toList.map .destructed ∧
        destructed_objects (es ++ c1.data.toList.map .destructed)
          = c.data.toList ++ c1.data.toList ∧
        ((c.data.toList ++ c1.data.toList).map Object.serial).Nodup := by
  rcases hwf with he | ⟨o, ho⟩
  · have hc := Variant.copy_ctor_empty L Ts c w hcf he
    have hdt := Variant.dtor_empty L Ts c w hcf he
    have hdt2 : Variant.dtor L Ts ⟨c.type_id, c.data⟩ w = some w := hdt
    have hsw := swap_data_bytewise L c.data c.data htc htc
    refine ⟨c, w, [], ?_, rfl, rfl, rfl, by simp, ?_, ?_, ?_, ?_, w, hdt, ?_, ?_, ?_⟩
    · simp [Variant.self_assign, hc, Variant.operator_assign, hsw, hdt2]
    · simp [he.2, constructions]
    · simp [he.2, destructions]
    · simp [he.2, destructed_objects]
    · simp [he.2]
    · simp [he.2]
    · simp [he.2, destructed_objects]
    · simp [he.2]
  · have hd : c.data = some o := ho.2.2
    have hs : o.serial < w.next := hfresh o hd
    have hc := Variant.copy_ctor_occupied L Ts c o w hcf ho (hcopy o hd)
    have ho0 : Variant.Occupied L Ts ⟨c.type_id, c.data⟩ o := ho
    have ho2 : Variant.Occupied L Ts ⟨c.type_id, some ⟨w.next, o.type, o.value⟩⟩
        ⟨w.next, o.type, o.value⟩ := ⟨ho.1, ho.2.1, rfl⟩
    have htn : bytewise_copyable L (some ⟨w.next, o.type, o.value⟩) = true := by
      rw [hd] at htc
      exact htc
    have hsw := swap_data_bytewise L c.data (some ⟨w.next, o.type, o.value⟩) htc htn
    refine ⟨⟨c.type_id, some ⟨w.next, o.type, o.value⟩⟩,
      ⟨w.next + 1, w.trace ++ [.constructed ⟨w.next, o.type, o.value⟩]
        ++ [.destructed o]⟩,
      [.constructed ⟨w.next, o.type, o.value⟩, .destructed o],
      ?_, rfl, ?_, ?_, by simp, ?_, ?_, ?_, ?_, _,
      Variant.dtor_occupied L Ts _ _ _ hcf ho2, ?_, ?_, ?_⟩
    · simp [Variant.self_assign, hc, Variant.operator_assign, hsw,
        Variant.dtor_occupied L Ts _ o _ hcf ho0]
    · simp [hd]
    · simp [hd]
    · simp [hd, constructions]
    · simp [hd, destructions]
    · simp [hd, destructed_objects]
    · intro o' h'
      simp only [Option.some.injEq] at h'
      subst h'
      simp only [destructed_objects, List.mem_singleton]
      intro e
      rw [← e] at hs
      exact Nat.lt_irrefl _ hs
    · simp
    · simp [hd, destructed_objects]
    · simp [hd]
      omega

/-- C9 (assignment), evaluated on the code: in `Variant<int, std::string>`,
`a = b` with `a` holding the integer 42 and `b` holding the string `"hi"`
copy-constructs the temporary from `b`, and then line 115 exchanges the bytes
of the buffer of `a` with those of the temporary, which holds a `std::string`,
not trivially copyable, without running a constructor: `a` does not receive a
string equal to that of `b`, the effect is undefined. -/
theorem assign_swaps_bytes_of_string :
    Variant.copy_ctor lang0 Ts0 c_hi world2
      = some (.ok ⟨.hash 2, some ⟨2, .string, .string "hi"⟩⟩, c_hi,
          ⟨3, world2.trace ++ [.constructed ⟨2, .string, .string "hi"⟩]⟩) ∧
    lang0.trivially_copyable CType.string = false ∧
    swap_data lang0 c_42.data (some ⟨2, .string, .string "hi"⟩) = none ∧
    Variant.assign lang0 Ts0 c_42 c_hi world2 = none :=
  ⟨by rfl, by rfl, by rfl, by rfl⟩

/-- C10 (self-assignment), evaluated on the code: in
`Variant<int, std::string>`, `c = c` with `c` holding the string `"hi"`
copy-constructs the temporary and then exchanges the bytes of the two buffers,
each holding a `std::string`, without running a constructor: the value of `c`
is not preserved, the effect is undefined. -/
theorem self_assign_swaps_bytes_of_string :
    Variant.copy_ctor lang0 Ts0 c_hi world2
      = some (.ok ⟨.hash 2, some ⟨2, .string, .string "hi"⟩⟩, c_hi,
          ⟨3, world2.trace ++ [.constructed ⟨2, .string, .string "hi"⟩]⟩) ∧
    swap_data lang0 c_hi.data (some ⟨2, .string, .string "hi"⟩) = none ∧
    Variant.self_assign lang0 Ts0 c_hi world2 = none :=
  ⟨by rfl, by rfl, by rfl⟩

/-! ## Claims about failing operations -/

/-- When the copy dispatch throws, the exception is that of the alternative's
copy constructor, and both buffers and the world are as before. -/
theorem VariantHelper.copy_error_inv (L : Lang Ty Val) (Ts : List Ty) (id : TypeId Ty)
    (old_data new_data old1 new1 : Data Ty Val) (w w1 : World Ty Val) (e : Exception)
    (h : VariantHelper.copy L Ts id old_data new_data w = some (.error e, old1, new1, w1)) :
    e = .alternative_ctor ∧ old1 = old_data ∧ new1 = new_data ∧ w1 = w := by
  induction Ts with
  | nil => simp [VariantHelper.copy] at h
  | cons U Us ih =>
    unfold VariantHelper.copy at h
    split at h
    · unfold copy_construct at h
      split at h
      · split at h
        · split at h
          · simp only [Option.some.injEq, Prod.mk.injEq, Except.error.injEq] at h
            obtain ⟨h1, h2, h3, h4⟩ := h
            exact ⟨h1.symm, h2.symm, h3.symm, h4.symm⟩
          · simp at h
        · simp at h
      · simp at h
    · exact ih h

/-- When `Variant(const Variant &)` throws, its argument and the world are as
before. -/
theorem Variant.copy_ctor_error_inv (L : Lang Ty Val) (Ts : List Ty)
    (other other1 : Variant Ty Val) (w w1 : World Ty Val) (e : Exception)
    (h : Variant.copy_ctor L Ts other w = some (.error e, other1, w1)) :
    e = .alternative_ctor ∧ other1 = other ∧ w1 = w := by
  unfold Variant.copy_ctor at h
  split at h
  · simp at h
  · rename_i e2 od nd w2 hc
    simp only [Option.some.injEq, Prod.mk.injEq, Except.error.injEq] at h
    obtain ⟨h1, h2, h3⟩ := h
    obtain ⟨i1, i2, -, i4⟩ := VariantHelper.copy_error_inv L Ts _ _ _ _ _ _ _ _ hc
    subst h1 h2 h3 i2
    exact ⟨i1, rfl, i4⟩
  · simp at h

/-- C11 (assignment failure atomicity): whatever the containers `a` and `b`,
when the copy construction of the by-value parameter of `operator=` from `b`
throws, `a = b` throws the same exception before the body of `operator=` runs:
`a` keeps its discriminant and buffer, `b` is as it was, and no constructor or
destructor call is recorded. -/
theorem assign_copy_failure_leaves_lhs (L : Lang Ty Val) (Ts : List Ty)
    (a b b1 : Variant Ty Val) (w w1 : World Ty Val) (e : Exception)
    (hfail : Variant.copy_ctor L Ts b w = some (.error e, b1, w1)) :
    Variant.assign L Ts a b w = some (.error e, a, b, w) := by
  obtain ⟨-, h2, h3⟩ := Variant.copy_ctor_error_inv L Ts b b1 w w1 e hfail
  subst h2 h3
  simp [Variant.assign, hfail]

theorem assign_copy_failure_leaves_lhs_witness :
    Variant.assign lang1 Ts0 c_42 c_hi world2
      = some (.error .alternative_ctor, c_42, c_hi, world2) :=
  assign_copy_failure_leaves_lhs lang1 Ts0 c_42 c_hi c_hi world2 world2 .alternative_ctor
    (by rfl)

/-- C13 (failure atomicity of `set`), evaluated on the code: in
`Variant<int, std::string>`, on the container `c_42`, which holds the integer
42, a `set<std::string>(args)` whose string constructor throws has already run
the destroy dispatch: the integer is destroyed, the buffer holds no object, and
the discriminant still identifies `int`.  The prior state is not kept, and the
destructor of the container then destroys an object that is no longer alive,
which is undefined. -/
theorem set_ctor_failure_destroys_prior_value :
    Variant.set lang0 Ts0 .string none c_42 world2
      = some (.error .alternative_ctor, ⟨.hash 1, none⟩,
          ⟨2, world2.trace ++ [.destructed ⟨1, .int, .int 42⟩]⟩) ∧
    Variant.is lang0 .int (⟨.hash 1, none⟩ : Variant CType CValue) = true ∧
    Variant.dtor lang0 Ts0 ⟨.hash 1, none⟩
      ⟨2, world2.trace ++ [.destructed ⟨1, .int, .int 42⟩]⟩ = none :=
  ⟨by rfl, by rfl, by rfl⟩

/-! ## Claims about storage size and the queries -/

/-- The trait `StaticMax` yields its last argument. -/
theorem Variant.StaticMax_eq_getLast? (args : List Nat) :
    Variant.StaticMax args = args.getLast? := by
  induction args with
  | nil => rfl
  | cons a as ih =>
    cases as with
    | nil => rfl
    | cons b bs =>
      rw [Variant.StaticMax, ih]
      simp [List.getLast?_cons_cons]

/-- C14 (storage sufficiency), evaluated on the code: for
`Variant<std::string, int>` with `sizeof(std::string) = 32`, `sizeof(int) = 4`,
`alignof(std::string) = 8` and `alignof(int) = 4`, `SIZE` is 4 and `ALIGN` is 4,
the values of the last alternative, not the maxima 32 and 8: the buffer is
smaller than `std::string`. -/
theorem StaticMax_yields_last_argument :
    Variant.SIZE sizeof0 [CType.string, CType.int] = some 4 ∧
    Variant.ALIGN alignof0 [CType.string, CType.int] = some 4 ∧
    sizeof0 CType.string = 32 ∧ alignof0 CType.string = 8 ∧
    Variant.StaticMax [32, 4] = some 4 ∧ max 32 4 = 32 :=
  ⟨by rfl, by rfl, by rfl, by rfl, by rfl, by rfl⟩

/-- C15 as stated fails: on a default-constructed container `is<T>()` is not
false for every `T`, since `is<void>()` is true there. -/
theorem is_void_on_default_ctor :
    ¬ ∀ T, Variant.is lang0 T (Variant.default_ctor lang0) = false := by
  intro h
  have h1 := h CType.void
  revert h1
  decide

/-- C15 amended: `is<T>()` is true exactly when the discriminant equals
`typeid(T).hash_code()`.  For a type `T` whose hash code differs from that of
`void` this is exactly when the container is reported as holding a value and
its discriminant identifies `T`, and `is<T>()` is false on a default-constructed
container.  For `void` itself, `is<void>()` is true exactly when `valid` is
false. -/
theorem is_iff_discriminant (L : Lang Ty Val) (T : Ty) (c : Variant Ty Val) :
    (Variant.is L T c = true ↔ c.type_id = .hash (L.hash_code T)) ∧
    (L.hash_code T ≠ L.hash_code L.void →
      (Variant.is L T c = true ↔
        Variant.valid L T c = true ∧ c.type_id = .hash (L.hash_code T))) ∧
    (L.hash_code T ≠ L.hash_code L.void →
      Variant.is L T (Variant.default_ctor L) = false) ∧
    (Variant.is L L.void c = true ↔ Variant.valid L T c = false) := by
  refine ⟨by simp [Variant.is], ?_, ?_, by simp [Variant.is, Variant.valid]⟩
  · intro hne
    simp only [Variant.is, Variant.valid, decide_eq_true_eq]
    constructor
    · intro h
      refine ⟨?_, h⟩
      rw [h]
      intro e
      injection e with e1
      exact hne e1
    · exact fun h => h.2
  · intro hne
    have hne2 : L.hash_code L.void ≠ L.hash_code T := fun e => hne e.symm
    simp [Variant.is, Variant.default_ctor, hne2]

theorem is_iff_discriminant_witness :
    (Variant.is lang0 CType.string c_hi = true ↔
      Variant.valid lang0 CType.string c_hi = true ∧
        c_hi.type_id = .hash (lang0.hash_code CType.string)) ∧
    Variant.is lang0 CType.string (Variant.default_ctor lang0) = false :=
  ⟨(is_iff_discriminant lang0 CType.string c_hi).2.1 (by decide),
   (is_iff_discriminant lang0 CType.string c_hi).2.2.1 (by decide)⟩

/-- C16: `valid<T>()` gives the same result for every type parameter; it is
false exactly when the discriminant is the empty sentinel; and in a
well-formed container over a collision-free pack it is false exactly when no
object lives in the buffer. -/
theorem valid_is_presence_test (L : Lang Ty Val) (c : Variant Ty Val) :
    (∀ T U, Variant.valid L T c = Variant.valid L U c) ∧
    (∀ T, Variant.valid L T c = false ↔ c.type_id = .hash (L.hash_code L.void)) ∧
    (∀ Ts T, CollisionFree L Ts → Variant.WellFormed L Ts c →
      (Variant.valid L T c = false ↔ c.data = none)) := by
  refine ⟨fun _ _ => rfl, ?_, ?_⟩
  · intro T
    simp [Variant.valid]
  · intro Ts T hcf hwf
    rcases hwf with ⟨ht, hd⟩ | ⟨o, ho⟩
    · simp [Variant.valid, ht, hd]
    · have hv := Variant.valid_occupied L Ts c o hcf ho T
      simp [hv, ho.2.2]

theorem valid_is_presence_test_witness :
    (Variant.valid lang0 CType.int c_hi = false ↔ c_hi.data = none) ∧
    (Variant.valid lang0 CType.int (Variant.default_ctor lang0) = false ↔
      (Variant.default_ctor lang0).data = none) :=
  ⟨(valid_is_presence_test lang0 c_hi).2.2 Ts0 CType.int lang0_collisionFree
     (Or.inr ⟨⟨0, .string, .string "hi"⟩, by decide, rfl, rfl⟩),
   (valid_is_presence_test lang0 (Variant.default_ctor lang0)).2.2 Ts0 CType.int
     lang0_collisionFree (Or.inl ⟨rfl, rfl⟩)⟩

/-! ## Claims about the dispatch -/

/-- C17 as stated fails: in `Variant<int, std::string>` the discriminant 99 is
neither the empty sentinel nor the identifier of `int` or of `std::string`, and
`destroy`, `move` and `copy` each return normally on it, with the buffers and
the world untouched: nothing is reported. -/
theorem dispatch_absorbs_unknown_discriminant :
    VariantHelper.destroy lang0 Ts0 (.hash 99) c_hi.data world2
      = some (c_hi.data, world2) ∧
    VariantHelper.move lang0 Ts0 (.hash 99) c_hi.data none world2
      = some (c_hi.data, none, world2) ∧
    VariantHelper.copy lang0 Ts0 (.hash 99) c_hi.data none world2
      = some (.ok (), c_hi.data, none, world2) ∧
    (TypeId.hash 99 : TypeId CType) ≠ .hash (lang0.hash_code lang0.void) ∧
    ∀ U ∈ Ts0, (TypeId.hash 99 : TypeId CType) ≠ .hash (lang0.hash_code U) :=
  ⟨by rfl, by rfl, by rfl, by decide, by decide⟩

/-- C17 amended: for every discriminant that equals the identifier of no
alternative of the list, the empty sentinel or any other value, each of
`destroy`, `move` and `copy` returns normally as a no-op: the buffers and the
world are untouched and nothing is reported. -/
theorem dispatch_unmatched_is_noop (L : Lang Ty Val) (Ts : List Ty) (id : TypeId Ty)
    (old_data new_data : Data Ty Val) (w : World Ty Val)
    (h : ∀ U ∈ Ts, id ≠ .hash (L.hash_code U)) :
    VariantHelper.destroy L Ts id old_data w = some (old_data, w) ∧
    VariantHelper.move L Ts id old_data new_data w = some (old_data, new_data, w) ∧
    VariantHelper.copy L Ts id old_data new_data w
      = some (.ok (), old_data, new_data, w) :=
  ⟨VariantHelper.destroy_miss L Ts id old_data w h,
   VariantHelper.move_miss L Ts id old_data new_data w h,
   VariantHelper.copy_miss L Ts id old_data new_data w h⟩

theorem dispatch_unmatched_is_noop_witness :
    VariantHelper.destroy lang0 Ts0 (.hash 99) c_hi.data world2
      = some (c_hi.data, world2) ∧
    VariantHelper.move lang0 Ts0 (.hash 99) c_hi.data none world2
      = some (c_hi.data, none, world2) ∧
    VariantHelper.copy lang0 Ts0 (.hash 99) c_hi.data none world2
      = some (.ok (), c_hi.data, none, world2) :=
  dispatch_unmatched_is_noop lang0 Ts0 (.hash 99) c_hi.data none world2 (by decide)

theorem VariantHelper.destroy_eq_find (L : Lang Ty Val) (Ts : List Ty) (id : TypeId Ty)
    (data : Data Ty Val) (w : World Ty Val) :
    VariantHelper.destroy L Ts id data w
      = match Ts.find? (fun U => decide (id = .hash (L.hash_code U))) with
        | some T => destroy_in_place T data w
        | none => some (data, w) := by
  induction Ts with
  | nil => rfl
  | cons U Us ih =>
    by_cases h : id = .hash (L.hash_code U)
    · simp [VariantHelper.destroy, List.find?_cons, h]
    · simp [VariantHelper.destroy, List.find?_cons, h, ih]

theorem VariantHelper.move_eq_find (L : Lang Ty Val) (Ts : List Ty) (id : TypeId Ty)
    (old_data new_data : Data Ty Val) (w : World Ty Val) :
    VariantHelper.move L Ts id old_data new_data w
      = match Ts.find? (fun U => decide (id = .hash (L.hash_code U))) with
        | some T => move_construct L T old_data w
        | none => some (old_data, new_data, w) := by
  induction Ts with
  | nil => rfl
  | cons U Us ih =>
    by_cases h : id = .hash (L.hash_code U)
    · simp [VariantHelper.move, List.find?_cons, h]
    · simp [VariantHelper.move, List.find?_cons, h, ih]

theorem VariantHelper.copy_eq_find (L : Lang Ty Val) (Ts : List Ty) (id : TypeId Ty)
    (old_data new_data : Data Ty Val) (w : World Ty Val) :
    VariantHelper.copy L Ts id old_data new_data w
      = match Ts.find? (fun U => decide (id = .hash (L.hash_code U))) with
        | some T => copy_construct L T old_data new_data w
        | none => some (.ok (), old_data, new_data, w) := by
  induction Ts with
  | nil => rfl
  | cons U Us ih =>
    by_cases h : id = .hash (L.hash_code U)
    · simp [VariantHelper.copy, List.find?_cons, h]
    · simp [VariantHelper.copy, List.find?_cons, h, ih]

/-- C18 (first-match scan): for every pack and every tag, each of `destroy`,
`move` and `copy` looks up the first alternative, in the order of the pack,
whose identifier equals the tag; when there is one it performs the typed
operation of that alternative and nothing else, whatever follows it in the
pack; when there is none (the pack is exhausted) it returns with the buffers
and the world untouched.  The latter is the case of the empty sentinel when no
alternative shares its hash code with `void`. -/
theorem dispatch_is_first_match (L : Lang Ty Val) (Ts : List Ty) (id : TypeId Ty)
    (old_data new_data : Data Ty Val) (w : World Ty Val) :
    (VariantHelper.destroy L Ts id old_data w
      = match Ts.find? (fun U => decide (id = .hash (L.hash_code U))) with
        | some T => destroy_in_place T old_data w
        | none => some (old_data, w)) ∧
    (VariantHelper.move L Ts id old_data new_data w
      = match Ts.find? (fun U => decide (id = .hash (L.hash_code U))) with
        | some T => move_construct L T old_data w
        | none => some (old_data, new_data, w)) ∧
    (VariantHelper.copy L Ts id old_data new_data w
      = match Ts.find? (fun U => decide (id = .hash (L.hash_code U))) with
        | some T => copy_construct L T old_data new_data w
        | none => some (.ok (), old_data, new_data, w)) ∧
    ((∀ U ∈ Ts, L.hash_code U ≠ L.hash_code L.void) →
      VariantHelper.destroy L Ts (.hash (L.hash_code L.void)) old_data w
        = some (old_data, w) ∧
      VariantHelper.move L Ts (.hash (L.hash_code L.void)) old_data new_data w
        = some (old_data, new_data, w) ∧
      VariantHelper.copy L Ts (.hash (L.hash_code L.void)) old_data new_data w
        = some (.ok (), old_data, new_data, w)) := by
  refine ⟨VariantHelper.destroy_eq_find L Ts id old_data w,
    VariantHelper.move_eq_find L Ts id old_data new_data w,
    VariantHelper.copy_eq_find L Ts id old_data new_data w, ?_⟩
  intro h
  have hmiss : ∀ U ∈ Ts, (TypeId.hash (L.hash_code L.void) : TypeId Ty)
      ≠ .hash (L.hash_code U) := by
    intro U hU e
    injection e with e1
    exact h U hU e1.symm
  exact ⟨VariantHelper.destroy_miss L Ts _ old_data w hmiss,
    VariantHelper.move_miss L Ts _ old_data new_data w hmiss,
    VariantHelper.copy_miss L Ts _ old_data new_data w hmiss⟩

theorem dispatch_is_first_match_witness :
    VariantHelper.destroy lang0 Ts0 (.hash (lang0.hash_code lang0.void)) c_hi.data world2
        = some (c_hi.data, world2) ∧
    VariantHelper.move lang0 Ts0 (.hash (lang0.hash_code lang0.void)) c_hi.data none world2
        = some (c_hi.data, none, world2) ∧
    VariantHelper.copy lang0 Ts0 (.hash (lang0.hash_code lang0.void)) c_hi.data none world2
        = some (.ok (), c_hi.data, none, world2) :=
  (dispatch_is_first_match lang0 Ts0 (.hash 2) c_hi.data none world2).2.2.2 (by decide)

/-! ## The invariant on reachable states -/

/-- C19 (tag/storage invariant), evaluated on the code: in
`Variant<int, std::string>`, `set<int>(42)` on a default-constructed container
leaves the discriminant `typeid(int)`, which `is<int>()` does not recognise;
copy-constructing from that container dispatches on it, matches no alternative
and yields a container whose discriminant is not the empty sentinel while no
object lives in its buffer.  Neither container satisfies the invariant, and
neither does the container a throwing `set` leaves behind. -/
theorem reachable_states_break_invariant :
    Variant.set lang0 Ts0 .int (some (.int 42)) (Variant.default_ctor lang0) world0
      = some (.ok (), ⟨.info .int, some ⟨0, .int, .int 42⟩⟩,
          ⟨1, [.constructed ⟨0, .int, .int 42⟩]⟩) ∧
    Variant.copy_ctor lang0 Ts0 ⟨.info .int, some ⟨0, .int, .int 42⟩⟩
        ⟨1, [.constructed ⟨0, .int, .int 42⟩]⟩
      = some (.ok ⟨.info .int, none⟩, ⟨.info .int, some ⟨0, .int, .int 42⟩⟩,
          ⟨1, [.constructed ⟨0, .int, .int 42⟩]⟩) ∧
    ¬ Variant.TagMatchesStorage lang0
        (⟨.info .int, some ⟨0, .int, .int 42⟩⟩ : Variant CType CValue) ∧
    ¬ Variant.TagMatchesStorage lang0 (⟨.info .int, none⟩ : Variant CType CValue) ∧
    Variant.set lang0 Ts0 .string none c_42 world2
      = some (.error .alternative_ctor, ⟨.hash 1, none⟩,
          ⟨2, world2.trace ++ [.destructed ⟨1, .int, .int 42⟩]⟩) ∧
    ¬ Variant.TagMatchesStorage lang0 (⟨.hash 1, none⟩ : Variant CType CValue) := by
  refine ⟨by rfl, by rfl, ?_, ?_, by rfl, ?_⟩
  · intro h
    have h1 := h.2 ⟨0, .int, .int 42⟩ rfl
    revert h1
    decide
  · intro h
    have h1 := h.1.mpr rfl
    revert h1
    decide
  · intro h
    have h1 := h.1.mpr rfl
    revert h1
    decide

/-! ## Duplicate alternatives -/

theorem find?_filter_of_imp (p q : Ty → Bool) (l : List Ty)
    (h : ∀ x, p x = true → q x = true) : (l.filter q).find? p = l.find? p := by
  induction l with
  | nil => rfl
  | cons x xs ih =>
    by_cases hq : q x = true
    · by_cases hp : p x = true
      · simp [List.filter_cons, hq, List.find?_cons, hp]
      · simp [List.filter_cons, hq, List.find?_cons, hp, ih]
    · have hp : ¬ p x = true := fun e => hq (h x e)
      simp [List.filter_cons, hq, List.find?_cons, hp, ih]

theorem find?_remove_later_duplicates (p : Ty → Bool) (Ts : List Ty) :
    (remove_later_duplicates Ts).find? p = Ts.find? p := by
  induction Ts with
  | nil => rfl
  | cons T Ts ih =>
    by_cases hp : p T = true
    · simp [remove_later_duplicates, List.find?_cons, hp]
    · have himp : ∀ x, p x = true → decide (x ≠ T) = true := by
        intro x hx
        simp only [ne_eq, decide_not, Bool.not_eq_eq_eq_not, Bool.not_true,
          decide_eq_false_iff_not]
        intro e
        exact hp (e ▸ hx)
      simp only [remove_later_duplicates, List.find?_cons, hp]
      rw [find?_filter_of_imp p _ _ himp, ih]

theorem mem_remove_later_duplicates (T : Ty) (Ts : List Ty) :
    T ∈ remove_later_duplicates Ts ↔ T ∈ Ts := by
  induction Ts with
  | nil => simp [remove_later_duplicates]
  | cons U Us ih =>
    simp only [remove_later_duplicates, List.mem_cons, List.mem_filter, ih, ne_eq,
      decide_not, Bool.not_eq_eq_eq_not, Bool.not_true, decide_eq_false_iff_not]
    constructor
    · rintro (h | ⟨h, -⟩)
      · exact Or.inl h
      · exact Or.inr h
    · rintro (h | h)
      · exact Or.inl h
      · by_cases e : T = U
        · exact Or.inl e
        · exact Or.inr ⟨h, e⟩

theorem nodup_remove_later_duplicates (Ts : List Ty) :
    (remove_later_duplicates Ts).Nodup := by
  induction Ts with
  | nil => simp [remove_later_duplicates]
  | cons U Us ih =>
    simp only [remove_later_duplicates, List.nodup_cons, List.mem_filter, ne_eq,
      decide_not, Bool.not_eq_eq_eq_not, Bool.not_true, decide_eq_false_iff_not,
      not_true_eq_false, and_false, not_false_eq_true, true_and]
    exact ih.filter _

/-- Removing every later occurrence of a repeated type from the pack leaves a
pack without repetitions and with the same members, and changes neither
`FindType` nor any of the three dispatch routines, on every type, tag, buffer
and world. -/
theorem VariantHelper.remove_later_duplicates_eq (L : Lang Ty Val) (Ts : List Ty) :
    (remove_later_duplicates Ts).Nodup ∧
    (∀ T, T ∈ remove_later_duplicates Ts ↔ T ∈ Ts) ∧
    (∀ T, Variant.FindType T (remove_later_duplicates Ts) = Variant.FindType T Ts) ∧
    (∀ id data (w : World Ty Val),
      VariantHelper.destroy L (remove_later_duplicates Ts) id data w
        = VariantHelper.destroy L Ts id data w) ∧
    (∀ id old_data new_data (w : World Ty Val),
      VariantHelper.move L (remove_later_duplicates Ts) id old_data new_data w
        = VariantHelper.move L Ts id old_data new_data w) ∧
    (∀ id old_data new_data (w : World Ty Val),
      VariantHelper.copy L (remove_later_duplicates Ts) id old_data new_data w
        = VariantHelper.copy L Ts id old_data new_data w) := by
  refine ⟨nodup_remove_later_duplicates Ts, fun T => mem_remove_later_duplicates T Ts,
    ?_, ?_, ?_, ?_⟩
  · intro T
    rw [Bool.eq_iff_iff, Variant.FindType_iff, Variant.FindType_iff,
      mem_remove_later_duplicates]
  · intro id data w
    rw [VariantHelper.destroy_eq_find, VariantHelper.destroy_eq_find,
      find?_remove_later_duplicates]
  · intro id old_data new_data w
    rw [VariantHelper.move_eq_find, VariantHelper.move_eq_find,
      find?_remove_later_duplicates]
  · intro id old_data new_data w
    rw [VariantHelper.copy_eq_find, VariantHelper.copy_eq_find,
      find?_remove_later_duplicates]

/-- C20 (duplicate alternatives), evaluated on the code: the pack
`int, std::string, int` without its later duplicate is `int, std::string`.
`FindType` and the dispatch agree on the two packs, but the containers do not:
`StaticMax` yields its last argument, so `Variant<int, std::string, int>` has
`SIZE` 4 and `ALIGN` 4, too small for a `std::string` of size 32 and alignment
8, while `Variant<int, std::string>` has `SIZE` 32 and `ALIGN` 8. -/
theorem duplicates_change_buffer_size :
    remove_later_duplicates [CType.int, CType.string, CType.int]
      = [CType.int, CType.string] ∧
    Variant.SIZE sizeof0 [CType.int, CType.string, CType.int] = some 4 ∧
    Variant.SIZE sizeof0 (remove_later_duplicates [CType.int, CType.string, CType.int])
      = some 32 ∧
    Variant.ALIGN alignof0 [CType.int, CType.string, CType.int] = some 4 ∧
    Variant.ALIGN alignof0 (remove_later_duplicates [CType.int, CType.string, CType.int])
      = some 8 ∧
    sizeof0 CType.string = 32 ∧ alignof0 CType.string = 8 :=
  ⟨by rfl, by rfl, by rfl, by rfl, by rfl, by rfl, by rfl⟩

end CppVariant
